import Mathlib

/-!
Shallow embedding of `src/index.js` (WhatsAppBulkSender) and proofs about it.

The source is a Node.js bulk WhatsApp sender.  We embed its pure logic and
its interactions with the transport session as explicit data:

* the transport session (`whatsapp-web.js` Client) is modelled as a record of
  two possibly-faulting operations, `getNumberId` and `send`; a thrown
  JavaScript exception is modelled as `Except.error`;
* every transport call and every timed pause is recorded in an event trace,
  so that statements such as "no send call is performed" or "the delay is
  awaited exactly N-1 times" are statements about the trace;
* JavaScript string semantics that matter are modelled faithfully:
  `||` on strings treats the empty string as falsy, and
  `String.prototype.replace(search, repl)` replaces the first occurrence
  only and expands the substitution patterns ($$ $& and the two
  quote-forms) inside the replacement string.
-/

namespace WhatsAppSender

/-- The character `$` (starts a substitution pattern in a JS replacement string). -/
def dollarChar : Char := '$'

/-- The character `&` (second character of the matched-string pattern). -/
def ampChar : Char := '&'

/-- The backquote character (second character of the before-match pattern). -/
def backquoteChar : Char := Char.ofNat 96

/-- The single-quote character (second character of the after-match pattern). -/
def singleQuoteChar : Char := Char.ofNat 39

/-- JavaScript `a || b` where `a` is a string-or-null/undefined value and `b`
a string: the empty string and null are falsy, so they select `b`. -/
def jsOrStr (a : Option String) (b : String) : String :=
  match a with
  | none => b
  | some s => if s = "" then b else s

/-- JavaScript `a || null` where `a` is a string-or-absent value:
an absent or empty string becomes `null` (`none`). -/
def jsOrNull (a : Option String) : Option String :=
  match a with
  | none => none
  | some s => if s = "" then none else some s

/-- ECMAScript GetSubstitution for a string (non-regexp) search value:
scan the replacement text; `$$` yields `$`, `$&` yields the matched string,
a `$` followed by the backquote yields the text before the match, a `$`
followed by a single quote yields the text after the match, and any other
`$` (including a trailing one) stays literal. -/
def expandRepl (matched before after : String) : List Char → String
  | [] => ""
  | [c] => if c = dollarChar then "$" else String.singleton c
  | c :: d :: rest =>
    if c = dollarChar then
      if d = dollarChar then "$" ++ expandRepl matched before after rest
      else if d = ampChar then matched ++ expandRepl matched before after rest
      else if d = backquoteChar then before ++ expandRepl matched before after rest
      else if d = singleQuoteChar then after ++ expandRepl matched before after rest
      else "$" ++ expandRepl matched before after (d :: rest)
    else String.singleton c ++ expandRepl matched before after (d :: rest)

/-- Split a character list at the first occurrence of the pattern `pat`:
`some (pre, post)` with the input equal to `pre ++ pat ++ post` and the
occurrence leftmost, or `none` when `pat` does not occur. -/
def firstSplit (pat : List Char) : List Char → Option (List Char × List Char)
  | [] => if pat.isPrefixOf ([] : List Char) then some ([], []) else none
  | c :: rest =>
    if pat.isPrefixOf (c :: rest) then some ([], (c :: rest).drop pat.length)
    else (firstSplit pat rest).map fun pr => (c :: pr.1, pr.2)

/-- JavaScript `s.replace(pat, repl)` with string arguments: replace the first
occurrence of `pat` (if any) by `repl` after substitution-pattern expansion. -/
def jsReplace (s pat repl : String) : String :=
  match firstSplit pat.data s.data with
  | none => s
  | some pr => pr.1.asString ++ expandRepl pat pr.1.asString pr.2.asString repl.data ++ pr.2.asString

/-- Modelled from the spec's words, for comparison with `jsReplace`:
replace the first occurrence of `pat` by the literal string `repl`
("the template with `{name}` replaced by the contact's name"). -/
def literalReplaceFirst (s pat repl : String) : String :=
  match firstSplit pat.data s.data with
  | none => s
  | some pr => pr.1.asString ++ repl ++ pr.2.asString

/-- A contact record `{name, phone, message}` as built by
`readContactsFromCSV` or by the `/send-message` handler. -/
structure Contact where
  name : String
  phone : String
  message : Option String
deriving DecidableEq

/-- An observable interaction of the sender with the outside world:
a recipient-registration check, a send, or a timed pause. -/
inductive Ev where
  | check (phone : String)
  | send (phone : String) (text : String)
  | sleep (ms : Nat)
deriving DecidableEq

/-- The transport session (the `whatsapp-web.js` client), modelled by its two
primitives used in `sendMessage`; `Except.error` models a thrown exception.
`getNumberId` returns `some id` for a registered recipient and `none`
(JS null) for an unregistered one. -/
structure Session where
  getNumberId : String → Except String (Option String)
  send : String → String → Except String Unit

/-- The body of the `try` block of `sendMessage` in src/index.js: resolve the
text as `contact.message || defaultMessage`, return false when it is falsy,
personalize via `message.replace('{name}', contact.name)`, check registration,
then send.  A session fault propagates as `Except.error`; the trace records
the transport calls actually made. -/
def sendMessageBody (sess : Session) (contact : Contact) (defaultMessage : String) :
    Except String Bool × List Ev :=
  if jsOrStr contact.message defaultMessage = "" then (.ok false, [])
  else
    match sess.getNumberId contact.phone with
    | .error e => (.error e, [Ev.check contact.phone])
    | .ok none => (.ok false, [Ev.check contact.phone])
    | .ok (some _) =>
      match sess.send contact.phone
          (jsReplace (jsOrStr contact.message defaultMessage) "{name}" contact.name) with
      | .error e =>
        (.error e,
         [Ev.check contact.phone,
          Ev.send contact.phone
            (jsReplace (jsOrStr contact.message defaultMessage) "{name}" contact.name)])
      | .ok _ =>
        (.ok true,
         [Ev.check contact.phone,
          Ev.send contact.phone
            (jsReplace (jsOrStr contact.message defaultMessage) "{name}" contact.name)])

/-- `sendMessage` from src/index.js: the `try`/`catch` wrapper, which converts
any fault raised inside the body into a `false` outcome. -/
def sendMessage (sess : Session) (contact : Contact) (defaultMessage : String) :
    Bool × List Ev :=
  match sendMessageBody sess contact defaultMessage with
  | (.ok b, tr) => (b, tr)
  | (.error _, tr) => (false, tr)

/-- The digit string produced by `phone.replace(/\D/g, '')` in
`formatPhoneNumber`: every non-digit character removed. -/
def cleanDigits (phone : String) : List Char :=
  phone.data.filter Char.isDigit

/-- The country-code branching of `formatPhoneNumber`: if the cleaned digits
do not start with "62" but start with "0", replace that leading "0" with
"62" (`'62' + cleaned.substring(1)`); if they start with neither, put "62"
in front; otherwise leave them unchanged. -/
def countryDigits (phone : String) : List Char :=
  if ¬ (['6', '2'].isPrefixOf (cleanDigits phone)) ∧ ['0'].isPrefixOf (cleanDigits phone) then
    '6' :: '2' :: (cleanDigits phone).tail
  else if ¬ (['6', '2'].isPrefixOf (cleanDigits phone))
      ∧ ¬ (['0'].isPrefixOf (cleanDigits phone)) then
    '6' :: '2' :: cleanDigits phone
  else
    cleanDigits phone

/-- `formatPhoneNumber` from src/index.js: strip non-digits, adjust the
country code, and append the fixed address suffix `@c.us`. -/
def formatPhoneNumber (phone : String) : String :=
  (countryDigits phone ++ "@c.us".data).asString

/-- The summary counters of a bulk run: total contacts, successes, failures. -/
structure Counters where
  total : Nat
  successCount : Nat
  failureCount : Nat
deriving DecidableEq

/-- The dispatch loop of `sendBulkMessages` (the `for` over `this.contacts`):
for each contact run `sendMessage` and bump a counter; after every contact
except the last (`if (i < this.contacts.length - 1)`) await `sleep(delay)`.
Returns (successCount, failureCount, event trace). -/
def runLoop (sess : Session) (defaultMessage : String) (delay : Nat) :
    List Contact → Nat × Nat × List Ev
  | [] => (0, 0, [])
  | contact :: rest =>
    ((if (sendMessage sess contact defaultMessage).1 then 1 else 0) +
       (runLoop sess defaultMessage delay rest).1,
     (if (sendMessage sess contact defaultMessage).1 then 0 else 1) +
       (runLoop sess defaultMessage delay rest).2.1,
     (sendMessage sess contact defaultMessage).2 ++
       (if rest.isEmpty then [] else [Ev.sleep delay]) ++
       (runLoop sess defaultMessage delay rest).2.2)

/-- The dispatch portion of `sendBulkMessages` from src/index.js, taking the
already-materialized contact list (the spec's `runBatch`): an empty list
returns early with zero counters and no transport contact; otherwise the loop
runs and the summary counters are reported. -/
def sendBulkMessages (sess : Session) (contacts : List Contact)
    (defaultMessage : String) (delay : Nat) : Counters × List Ev :=
  if contacts.isEmpty then (⟨0, 0, 0⟩, [])
  else
    (⟨contacts.length,
      (runLoop sess defaultMessage delay contacts).1,
      (runLoop sess defaultMessage delay contacts).2.1⟩,
     (runLoop sess defaultMessage delay contacts).2.2)

/-- Recognizer for pause events in a trace. -/
def isSleep : Ev → Bool
  | .sleep _ => true
  | _ => false

/-- Join a list of traces with a separator trace between consecutive
elements (and no separator after the last). -/
def sepJoin (sep : List Ev) : List (List Ev) → List Ev
  | [] => []
  | [t] => t
  | t :: u :: rest => t ++ sep ++ sepJoin sep (u :: rest)

/-- A parsed CSV row: each recognized column is either absent (`none`) or a
string (possibly empty). -/
structure Row where
  name : Option String
  phone : Option String
  message : Option String

/-- The row filter of `readContactsFromCSV`: `if (row.phone)` — the row is
kept exactly when the phone field is present and non-empty. -/
def rowAccepted (row : Row) : Bool :=
  match row.phone with
  | none => false
  | some p => p != ""

/-- The contact built from an accepted row in `readContactsFromCSV`:
`name: row.name || 'Unknown'`, `phone: this.formatPhoneNumber(row.phone)`,
`message: row.message || null`. -/
def rowContact (row : Row) : Contact :=
  { name := jsOrStr row.name "Unknown"
    phone := formatPhoneNumber (jsOrStr row.phone "")
    message := jsOrNull row.message }

/-- The row-processing of `readContactsFromCSV` from src/index.js over the
materialized list of parsed rows: keep rows with a truthy phone and build
the contact record for each, in order. -/
def readContactsFromCSV (rows : List Row) : List Contact :=
  rows.filterMap fun row =>
    match row.phone with
    | none => none
    | some p =>
      if p = "" then none
      else some { name := jsOrStr row.name "Unknown"
                  phone := formatPhoneNumber p
                  message := jsOrNull row.message }

/-- A `/send-message` request body: the three JSON fields, each possibly
absent. -/
structure ReqBody where
  name : Option String
  phone : Option String
  message : Option String

/-- A JSON response payload: either `{error: ...}` or `{status: ..., detail: ...}`. -/
inductive JsonBody where
  | errField (error : String)
  | statusDetail (status : String) (detail : String)
deriving DecidableEq

/-- An HTTP response: status code plus JSON payload. -/
structure HttpResponse where
  statusCode : Nat
  body : JsonBody
deriving DecidableEq

/-- An observable action of the request handler: acquiring the shared client
via `initWhatsAppClient`, or a transport interaction from `sendMessage`. -/
inductive GEv where
  | getSession
  | transport (e : Ev)
deriving DecidableEq

/-- JavaScript truthiness of an optional string field (`undefined`/`null`
and the empty string are falsy). -/
def jsTruthy (a : Option String) : Bool :=
  match a with
  | none => false
  | some s => s != ""

/-- The contact built by the `/send-message` handler:
`name: name || 'Unknown'`, `phone: formatPhoneNumber(phone)`,
`message: message`. -/
def reqContact (body : ReqBody) : Contact :=
  { name := jsOrStr body.name "Unknown"
    phone := formatPhoneNumber (jsOrStr body.phone "")
    message := body.message }

/-- The `/send-message` handler from src/index.js: reject when `phone` or
`message` is falsy with a 400 and the fixed error body, before touching the
client; otherwise acquire the shared client, build the contact, call
`sendMessage` with the default-message parameter left at its `''` default,
and map the boolean outcome to a 200 success or 500 failure response. -/
def postSendMessage (sess : Session) (body : ReqBody) : HttpResponse × List GEv :=
  if jsTruthy body.phone && jsTruthy body.message then
    (if (sendMessage sess (reqContact body) "").1 then
      ⟨200, .statusDetail "success" ("Message sent to " ++ (reqContact body).name)⟩
     else
      ⟨500, .statusDetail "failed" ("Failed to send message to " ++ (reqContact body).name)⟩,
     GEv.getSession :: (sendMessage sess (reqContact body) "").2.map GEv.transport)
  else
    (⟨400, .errField "phone and message are required"⟩, [])

/-- Global state of the lazy client initialization (`senderInstance` plus
observability counters): the memoized instance (identified by a numeric id),
the next fresh id, how many times `client.initialize()` was triggered, and
whether the client has become ready. -/
structure RegState where
  inst : Option Nat
  nextId : Nat
  initCount : Nat
  ready : Bool
deriving DecidableEq

/-- Program counter of one in-flight `initWhatsAppClient()` call under the
cooperative (single-threaded, suspend-at-await) execution model: about to run
the synchronous check-and-assign, suspended on `client.initialize()`,
suspended awaiting the ready event, or returned. -/
inductive CallPC where
  | entry
  | waitInit
  | waitReady
  | done
deriving DecidableEq

/-- The starting registry state: no instance, nothing initialized, not ready. -/
def initRegState : RegState := ⟨none, 0, 0, false⟩

/-- One cooperative step of an `initWhatsAppClient()` call.  The
`if (!senderInstance)` check and the assignment of `senderInstance` happen
synchronously with no `await` in between, so they form a single atomic step:
when no instance exists, create one and suspend on `initialize()`; when one
exists, return immediately (regardless of readiness).  The remaining steps
model `initialize()` resolving and the ready event firing. -/
def stepCall (s : RegState) (pc : CallPC) : RegState × CallPC :=
  match pc with
  | .entry =>
    match s.inst with
    | none =>
      ({ s with inst := some s.nextId, nextId := s.nextId + 1,
                initCount := s.initCount + 1 }, .waitInit)
    | some _ => (s, .done)
  | .waitInit => (s, .waitReady)
  | .waitReady => ({ s with ready := true }, .done)
  | .done => (s, .done)

/-- Run a set of concurrent `initWhatsAppClient()` calls under an arbitrary
cooperative schedule: each schedule entry names the call to step next
(out-of-range entries are skipped). -/
def runSched (s : RegState) (pcs : List CallPC) : List Nat → RegState × List CallPC
  | [] => (s, pcs)
  | i :: rest =>
    match pcs.get? i with
    | none => runSched s pcs rest
    | some pc => runSched (stepCall s pc).1 (pcs.set i (stepCall s pc).2) rest

/-- Registry invariant: either no instance was ever created, or exactly one
was — the one with id 0 — and `initialize()` was triggered exactly once. -/
def RegInv (s : RegState) : Prop :=
  (s.inst = none ∧ s.nextId = 0 ∧ s.initCount = 0) ∨
  (s.inst = some 0 ∧ s.nextId = 1 ∧ s.initCount = 1)

/-- Modelled from the spec's words, for comparison with the resolution step
of `sendMessage`: the nullish-coalescing resolution
`contact.message ?? defaultMessage`. -/
def specResolveText (contact : Contact) (defaultMessage : String) : String :=
  contact.message.getD defaultMessage

/-- A benign session for concrete evaluations: every recipient is registered
and every send succeeds. -/
def sessOk : Session :=
  { getNumberId := fun p => .ok (some p)
    send := fun _ _ => .ok () }

/-- A faulting session for concrete evaluations: the recipient check throws. -/
def sessFault : Session :=
  { getNumberId := fun _ => .error "boom"
    send := fun _ _ => .error "boom" }

/-- The trace of one `sendMessage` call has one of three shapes: no transport
call (no text), a registration check only, or a check followed by a send. -/
theorem sendMessage_trace_shape (sess : Session) (c : Contact) (dm : String) :
    (sendMessage sess c dm).2 = [] ∨ (sendMessage sess c dm).2 = [Ev.check c.phone] ∨
    ∃ t, (sendMessage sess c dm).2 = [Ev.check c.phone, Ev.send c.phone t] := by
  by_cases h : jsOrStr c.message dm = ""
  · left; simp [sendMessage, sendMessageBody, h]
  · cases hg : sess.getNumberId c.phone with
    | error e => right; left; simp [sendMessage, sendMessageBody, h, hg]
    | ok o =>
      cases o with
      | none => right; left; simp [sendMessage, sendMessageBody, h, hg]
      | some v =>
        cases hs : sess.send c.phone (jsReplace (jsOrStr c.message dm) "{name}" c.name) with
        | error e =>
          right; right
          exact ⟨jsReplace (jsOrStr c.message dm) "{name}" c.name,
                 by simp [sendMessage, sendMessageBody, h, hg, hs]⟩
        | ok u =>
          right; right
          exact ⟨jsReplace (jsOrStr c.message dm) "{name}" c.name,
                 by simp [sendMessage, sendMessageBody, h, hg, hs]⟩

/-- A `sendMessage` trace never contains a pause event. -/
theorem sendMessage_trace_sleepFree (sess : Session) (c : Contact) (dm : String) :
    ∀ e ∈ (sendMessage sess c dm).2, isSleep e = false := by
  rcases sendMessage_trace_shape sess c dm with h | h | ⟨t, h⟩ <;> rw [h] <;>
    intro e he <;> simp at he
  · simp [he, isSleep]
  · rcases he with he | he <;> simp [he, isSleep]

/-- Any send event in a `sendMessage` trace goes to the contact's phone and
carries the personalized text. -/
theorem sendMessage_send_event (sess : Session) (c : Contact) (dm : String)
    (ph txt : String) (hmem : Ev.send ph txt ∈ (sendMessage sess c dm).2) :
    ph = c.phone ∧ txt = jsReplace (jsOrStr c.message dm) "{name}" c.name := by
  by_cases h : jsOrStr c.message dm = ""
  · simp [sendMessage, sendMessageBody, h] at hmem
  · cases hg : sess.getNumberId c.phone with
    | error e => simp [sendMessage, sendMessageBody, h, hg] at hmem
    | ok o =>
      cases o with
      | none => simp [sendMessage, sendMessageBody, h, hg] at hmem
      | some v =>
        cases hs : sess.send c.phone (jsReplace (jsOrStr c.message dm) "{name}" c.name) with
        | error e =>
          simp [sendMessage, sendMessageBody, h, hg, hs] at hmem
          exact ⟨hmem.1, hmem.2⟩
        | ok u =>
          simp [sendMessage, sendMessageBody, h, hg, hs] at hmem
          exact ⟨hmem.1, hmem.2⟩

/-- Expanding a replacement string that contains no `$` leaves it unchanged. -/
theorem expandRepl_no_dollar (matched before after : String) :
    ∀ l : List Char, dollarChar ∉ l → expandRepl matched before after l = l.asString := by
  intro l
  induction l with
  | nil => intro _; rfl
  | cons c rest ih =>
    intro h
    have hc : ¬ c = dollarChar := fun he => h (by simp [he])
    have hrest : dollarChar ∉ rest := fun hm => h (List.mem_cons_of_mem _ hm)
    cases rest with
    | nil =>
      show (if c = dollarChar then "$" else String.singleton c) = [c].asString
      rw [if_neg hc]
      rfl
    | cons d rest2 =>
      show (if c = dollarChar then _ else String.singleton c ++
          expandRepl matched before after (d :: rest2)) = (c :: d :: rest2).asString
      rw [if_neg hc, ih hrest]
      rfl

/-- When the replacement contains no `$`, JavaScript `replace` coincides with
literal first-occurrence replacement. -/
theorem jsReplace_no_dollar (s pat repl : String) (h : dollarChar ∉ repl.data) :
    jsReplace s pat repl = literalReplaceFirst s pat repl := by
  unfold jsReplace literalReplaceFirst
  cases hf : firstSplit pat.data s.data with
  | none => rfl
  | some pr =>
    show pr.1.asString ++ expandRepl pat pr.1.asString pr.2.asString repl.data ++ pr.2.asString =
      pr.1.asString ++ repl ++ pr.2.asString
    rw [expandRepl_no_dollar _ _ _ _ h]
    rfl

/-- The two counters accumulated by the dispatch loop always sum to the
number of contacts processed. -/
theorem runLoop_counts (sess : Session) (dm : String) (delay : Nat) :
    ∀ contacts : List Contact,
      (runLoop sess dm delay contacts).1 + (runLoop sess dm delay contacts).2.1 =
        contacts.length := by
  intro contacts
  induction contacts with
  | nil => rfl
  | cons c rest ih =>
    simp only [runLoop, List.length_cons]
    cases (sendMessage sess c dm).1 <;> simp <;> omega

/-- The dispatch-loop trace is the per-contact `sendMessage` traces in input
order, separated by single pause events. -/
theorem runLoop_trace (sess : Session) (dm : String) (delay : Nat) :
    ∀ contacts : List Contact,
      (runLoop sess dm delay contacts).2.2 =
        sepJoin [Ev.sleep delay] (contacts.map fun c => (sendMessage sess c dm).2) := by
  intro contacts
  induction contacts with
  | nil => rfl
  | cons c rest ih =>
    cases rest with
    | nil => simp [runLoop, sepJoin]
    | cons c2 rest2 =>
      have hstep : (runLoop sess dm delay (c :: c2 :: rest2)).2.2 =
          (sendMessage sess c dm).2 ++ [Ev.sleep delay] ++
            (runLoop sess dm delay (c2 :: rest2)).2.2 := rfl
      rw [hstep, ih]
      rfl

/-- Joining sleep-free traces with a one-pause separator yields exactly one
pause per adjacent pair. -/
theorem sepJoin_countP (delay : Nat) :
    ∀ traces : List (List Ev), (∀ t ∈ traces, t.countP isSleep = 0) →
      (sepJoin [Ev.sleep delay] traces).countP isSleep = traces.length - 1 := by
  intro traces
  induction traces with
  | nil => intro _; rfl
  | cons t rest ih =>
    intro h
    cases rest with
    | nil => simpa [sepJoin] using h t (by simp)
    | cons u rest2 =>
      have hstep : sepJoin [Ev.sleep delay] (t :: u :: rest2) =
          t ++ [Ev.sleep delay] ++ sepJoin [Ev.sleep delay] (u :: rest2) := rfl
      rw [hstep, List.countP_append, List.countP_append]
      have h1 := h t (by simp)
      have h2 := ih (fun x hx => h x (List.mem_cons_of_mem _ hx))
      rw [h1, h2]
      simp [isSleep, List.countP_cons]
      omega

/-- Every pause in a join of sleep-free traces is the separator pause. -/
theorem sepJoin_sleep_mem (delay m : Nat) :
    ∀ traces : List (List Ev), (∀ t ∈ traces, ∀ e ∈ t, isSleep e = false) →
      Ev.sleep m ∈ sepJoin [Ev.sleep delay] traces → m = delay := by
  intro traces
  induction traces with
  | nil => intro _ hm; simp [sepJoin] at hm
  | cons t rest ih =>
    intro h hm
    cases rest with
    | nil =>
      simp only [sepJoin] at hm
      have := h t (by simp) _ hm
      simp [isSleep] at this
    | cons u rest2 =>
      have hstep : sepJoin [Ev.sleep delay] (t :: u :: rest2) =
          t ++ [Ev.sleep delay] ++ sepJoin [Ev.sleep delay] (u :: rest2) := rfl
      rw [hstep] at hm
      simp only [List.mem_append] at hm
      rcases hm with (hm | hm) | hm
      · have := h t (by simp) _ hm
        simp [isSleep] at this
      · simpa using hm
      · exact ih (fun x hx => h x (List.mem_cons_of_mem _ hx)) hm

/-- One cooperative step preserves the registry invariant. -/
theorem regInv_step (s : RegState) (pc : CallPC) (h : RegInv s) :
    RegInv (stepCall s pc).1 := by
  cases pc with
  | entry =>
    rcases h with ⟨h1, h2, h3⟩ | ⟨h1, h2, h3⟩
    · right; simp [stepCall, h1, h2, h3]
    · have hs : (stepCall s CallPC.entry).1 = s := by simp [stepCall, h1]
      rw [hs]
      exact Or.inr ⟨h1, h2, h3⟩
  | waitInit => exact h
  | waitReady =>
    rcases h with ⟨h1, h2, h3⟩ | ⟨h1, h2, h3⟩
    · left; simp [stepCall, h1, h2, h3]
    · right; simp [stepCall, h1, h2, h3]
  | done => exact h

/-- Any schedule of cooperative steps preserves the registry invariant. -/
theorem runSched_inv :
    ∀ (sched : List Nat) (s : RegState) (pcs : List CallPC), RegInv s →
      RegInv (runSched s pcs sched).1 := by
  intro sched
  induction sched with
  | nil => intro s pcs h; exact h
  | cons i rest ih =>
    intro s pcs h
    unfold runSched
    cases hg : pcs.get? i with
    | none => exact ih s pcs h
    | some pc => exact ih _ _ (regInv_step s pc h)

/-- C1: for every non-empty contact list and every delay, the bulk loop
performs exactly N dispatch attempts via `sendMessage`, in input order (the
trace is the per-contact traces joined in list order), reports N outcomes
(successes plus failures equal N), and pauses exactly N-1 times, each pause
for exactly `delay` milliseconds and placed between consecutive attempts,
never after the last — for every session behaviour. -/
theorem sendBulkMessages_batch (sess : Session) (contacts : List Contact)
    (dm : String) (delay : Nat) (h : contacts ≠ []) :
    (sendBulkMessages sess contacts dm delay).1.total = contacts.length ∧
    (sendBulkMessages sess contacts dm delay).1.successCount +
      (sendBulkMessages sess contacts dm delay).1.failureCount = contacts.length ∧
    (sendBulkMessages sess contacts dm delay).2 =
      sepJoin [Ev.sleep delay] (contacts.map fun c => (sendMessage sess c dm).2) ∧
    ((sendBulkMessages sess contacts dm delay).2.countP isSleep = contacts.length - 1) ∧
    (∀ m, Ev.sleep m ∈ (sendBulkMessages sess contacts dm delay).2 → m = delay) := by
  have hne : contacts.isEmpty = false := by
    cases contacts with
    | nil => exact absurd rfl h
    | cons c rest => rfl
  have htr := runLoop_trace sess dm delay contacts
  have hcnt := runLoop_counts sess dm delay contacts
  refine ⟨?_, ?_, ?_, ?_, ?_⟩
  · simp [sendBulkMessages, hne]
  · simpa [sendBulkMessages, hne] using hcnt
  · simpa [sendBulkMessages, hne] using htr
  · have hfree : ∀ t ∈ contacts.map fun c => (sendMessage sess c dm).2,
        t.countP isSleep = 0 := by
      intro t ht
      rcases List.mem_map.mp ht with ⟨c, _, hc⟩
      rw [← hc, List.countP_eq_zero]
      intro e he
      simpa using sendMessage_trace_sleepFree sess c dm e he
    have := sepJoin_countP delay _ hfree
    simp only [sendBulkMessages, hne, Bool.false_eq_true, if_false]
    rw [htr, this, List.length_map]
  · intro m hm
    have hfree : ∀ t ∈ contacts.map fun c => (sendMessage sess c dm).2,
        ∀ e ∈ t, isSleep e = false := by
      intro t ht
      rcases List.mem_map.mp ht with ⟨c, _, hc⟩
      rw [← hc]
      exact sendMessage_trace_sleepFree sess c dm
    refine sepJoin_sleep_mem delay m _ hfree ?_
    rw [← htr]
    simpa [sendBulkMessages, hne] using hm

/-- C1 witness: the batch theorem applied to a concrete two-contact run. -/
theorem sendBulkMessages_batch_witness :
    (sendBulkMessages sessOk [⟨"A", "p1", some "m"⟩, ⟨"B", "p2", none⟩] "dm" 2000).1.total = 2 :=
  (sendBulkMessages_batch sessOk [⟨"A", "p1", some "m"⟩, ⟨"B", "p2", none⟩] "dm" 2000
    (by decide)).1

/-- C2: `formatPhoneNumber` is total, always returns a digit string followed
by the fixed suffix `@c.us`; the digit part is the cleaned digits unchanged
when they already start with "62", the cleaned digits with a leading "0"
replaced by "62", and otherwise the cleaned digits with "62" put in front. -/
theorem formatPhoneNumber_normalizes (raw : String) :
    (∃ D : List Char, (formatPhoneNumber raw).data = D ++ "@c.us".data ∧
      D.all Char.isDigit) ∧
    (['6', '2'].isPrefixOf (cleanDigits raw) →
      formatPhoneNumber raw = (cleanDigits raw ++ "@c.us".data).asString) ∧
    (¬ (['6', '2'].isPrefixOf (cleanDigits raw)) → ['0'].isPrefixOf (cleanDigits raw) →
      formatPhoneNumber raw = (('6' :: '2' :: (cleanDigits raw).tail) ++ "@c.us".data).asString) ∧
    (¬ (['6', '2'].isPrefixOf (cleanDigits raw)) → ¬ (['0'].isPrefixOf (cleanDigits raw)) →
      formatPhoneNumber raw = (('6' :: '2' :: cleanDigits raw) ++ "@c.us".data).asString) := by
  have hclean : ∀ c ∈ cleanDigits raw, c.isDigit := by
    intro c hc
    exact (List.mem_filter.mp hc).2
  have hcountry : (countryDigits raw).all Char.isDigit := by
    rw [List.all_eq_true]
    unfold countryDigits
    split
    · intro c hc
      simp only [List.mem_cons] at hc
      rcases hc with hc | hc | hc
      · simp [hc]
      · simp [hc]
      · refine hclean c ?_
        cases hd : cleanDigits raw with
        | nil => rw [hd] at hc; simp at hc
        | cons a l => rw [hd] at hc; exact List.mem_cons_of_mem _ hc
    · split
      · intro c hc
        simp only [List.mem_cons] at hc
        rcases hc with hc | hc | hc
        · simp [hc]
        · simp [hc]
        · exact hclean c hc
      · intro c hc
        exact hclean c hc
  refine ⟨⟨countryDigits raw, rfl, hcountry⟩, ?_, ?_, ?_⟩
  · intro h62
    unfold formatPhoneNumber countryDigits
    rw [if_neg (by simp [h62]), if_neg (by simp [h62])]
  · intro h62 h0
    unfold formatPhoneNumber countryDigits
    rw [if_pos ⟨h62, h0⟩]
  · intro h62 h0
    unfold formatPhoneNumber countryDigits
    rw [if_neg (fun hp => h0 hp.2), if_pos ⟨h62, h0⟩]

/-- C2 witness: the normalization theorem applied to the spec's example
`"081234567"`, whose digits start with the trunk digit "0". -/
theorem formatPhoneNumber_normalizes_witness :
    formatPhoneNumber "081234567" =
      (('6' :: '2' :: (cleanDigits "081234567").tail) ++ "@c.us".data).asString :=
  (formatPhoneNumber_normalizes "081234567").2.2.1 (by decide) (by decide)

/-- C3: a transport fault raised inside the body of `sendMessage` (during
the recipient check or the send) is caught and converted into a `false`
return value; the catch-wrapper `sendMessage` is a total function, so no
exception reaches its caller. -/
theorem sendMessage_catches_faults (sess : Session) (c : Contact) (dm : String)
    (h : ∃ e, (sendMessageBody sess c dm).1 = Except.error e) :
    (sendMessage sess c dm).1 = false := by
  obtain ⟨e, he⟩ := h
  unfold sendMessage
  rcases hb : sendMessageBody sess c dm with ⟨r, tr⟩
  rw [hb] at he
  cases r with
  | ok b => simp at he
  | error e2 => rfl

/-- C3 witness: the catch theorem applied to a session whose recipient check
throws. -/
theorem sendMessage_catches_faults_witness :
    (∃ e, (sendMessageBody sessFault ⟨"A", "p", some "Hi"⟩ "").1 = Except.error e) ∧
    (sendMessage sessFault ⟨"A", "p", some "Hi"⟩ "").1 = false :=
  ⟨⟨"boom", rfl⟩,
   sendMessage_catches_faults sessFault ⟨"A", "p", some "Hi"⟩ "" ⟨"boom", rfl⟩⟩

/-- C4 counterexample: the claim resolves the text with nullish coalescing
(`contact.message ?? defaultMessage`), under which a contact carrying the
empty-string message resolves to the empty text and must be a no-op `false`
with no transport call; the code uses `||`, so the same contact falls back to
the default message, contacts the transport and can return `true`. -/
theorem sendMessage_nullish_resolution_cex :
    specResolveText ⟨"A", "62812@c.us", some ""⟩ "Hi" = "" ∧
    (sendMessage sessOk ⟨"A", "62812@c.us", some ""⟩ "Hi").1 = true ∧
    (sendMessage sessOk ⟨"A", "62812@c.us", some ""⟩ "Hi").2 ≠ [] := by
  decide

/-- C4 (amended): `sendMessage` resolves the outgoing text as
`contact.message || defaultMessage` (an absent **or empty** message falls
back to the default); when the resolved text is empty it returns `false`
as a normal no-op outcome with no transport call at all. -/
theorem sendMessage_resolution (sess : Session) (c : Contact) (dm : String) :
    ((c.message = none ∨ c.message = some "") → jsOrStr c.message dm = dm) ∧
    (∀ m, c.message = some m → m ≠ "" → jsOrStr c.message dm = m) ∧
    (jsOrStr c.message dm = "" → sendMessage sess c dm = (false, [])) := by
  refine ⟨?_, ?_, ?_⟩
  · rintro (h | h) <;> simp [jsOrStr, h]
  · intro m hm hne
    simp [jsOrStr, hm, hne]
  · intro h
    simp [sendMessage, sendMessageBody, h]

/-- C4 witness: the resolution theorem applied to a contact with no message
and an empty default. -/
theorem sendMessage_resolution_witness :
    sendMessage sessOk ⟨"A", "p", none⟩ "" = (false, []) :=
  (sendMessage_resolution sessOk ⟨"A", "p", none⟩ "").2.2 rfl

/-- C5 counterexample: JavaScript `String.prototype.replace` expands
substitution patterns in the replacement string, so for the contact name
`"$&"` the delivered text is not the template with `{name}` replaced by the
name: the code delivers `"Hi {name}"` where the claim requires `"Hi $&"`. -/
theorem sendMessage_dollar_name_cex :
    (sendMessage sessOk ⟨"$&", "62812@c.us", some "Hi {name}"⟩ "").1 = true ∧
    (sendMessage sessOk ⟨"$&", "62812@c.us", some "Hi {name}"⟩ "").2 =
      [Ev.check "62812@c.us", Ev.send "62812@c.us" "Hi {name}"] ∧
    literalReplaceFirst "Hi {name}" "{name}" "$&" = "Hi $&" ∧
    ("Hi {name}" : String) ≠ "Hi $&" := by
  decide

/-- C5 (amended): when a text resolves, `sendMessage` returns `true` exactly
when the recipient is registered and the send succeeds; an unregistered
recipient yields `false` with no send call; on success the delivered text is
the resolved template with the first `{name}` occurrence replaced by the
contact's name under JavaScript replacement-pattern semantics, which is
literal first-occurrence replacement whenever the name contains no `$`. -/
theorem sendMessage_outcome (sess : Session) (c : Contact) (dm : String)
    (h : jsOrStr c.message dm ≠ "") :
    (sess.getNumberId c.phone = Except.ok none →
      sendMessage sess c dm = (false, [Ev.check c.phone])) ∧
    ((sendMessage sess c dm).1 = true ↔
      ((∃ v, sess.getNumberId c.phone = Except.ok (some v)) ∧
        sess.send c.phone (jsReplace (jsOrStr c.message dm) "{name}" c.name) =
          Except.ok ())) ∧
    ((sendMessage sess c dm).1 = true →
      (sendMessage sess c dm).2 =
        [Ev.check c.phone,
         Ev.send c.phone (jsReplace (jsOrStr c.message dm) "{name}" c.name)]) ∧
    (dollarChar ∉ c.name.data →
      jsReplace (jsOrStr c.message dm) "{name}" c.name =
        literalReplaceFirst (jsOrStr c.message dm) "{name}" c.name) := by
  refine ⟨?_, ?_, ?_, ?_⟩
  · intro hg
    simp [sendMessage, sendMessageBody, h, hg]
  · cases hg : sess.getNumberId c.phone with
    | error e => simp [sendMessage, sendMessageBody, h, hg]
    | ok o =>
      cases o with
      | none => simp [sendMessage, sendMessageBody, h, hg]
      | some v =>
        cases hs : sess.send c.phone (jsReplace (jsOrStr c.message dm) "{name}" c.name) with
        | error e => simp [sendMessage, sendMessageBody, h, hg, hs]
        | ok u => simp [sendMessage, sendMessageBody, h, hg, hs]
  · intro htrue
    cases hg : sess.getNumberId c.phone with
    | error e => simp [sendMessage, sendMessageBody, h, hg] at htrue
    | ok o =>
      cases o with
      | none => simp [sendMessage, sendMessageBody, h, hg] at htrue
      | some v =>
        cases hs : sess.send c.phone (jsReplace (jsOrStr c.message dm) "{name}" c.name) with
        | error e => simp [sendMessage, sendMessageBody, h, hg, hs] at htrue
        | ok u => simp [sendMessage, sendMessageBody, h, hg, hs]
  · intro hnd
    exact jsReplace_no_dollar _ _ _ hnd

/-- C5 witness: the outcome theorem applied to a registered recipient and a
succeeding send, with a resolved non-empty text. -/
theorem sendMessage_outcome_witness :
    (sendMessage sessOk ⟨"Bob", "p", some "Hi {name}"⟩ "").1 = true ↔
      ((∃ v, sessOk.getNumberId "p" = Except.ok (some v)) ∧
        sessOk.send "p" (jsReplace (jsOrStr (some "Hi {name}") "") "{name}" "Bob") =
          Except.ok ()) :=
  (sendMessage_outcome sessOk ⟨"Bob", "p", some "Hi {name}"⟩ "" (by decide)).2.1

/-- C6: under every cooperative interleaving of any number of
`initWhatsAppClient()` calls, at most one client instance is ever created
(the check-and-assign is synchronous, hence atomic), every call observes the
same instance (the one with id 0), and a call entering after an instance
exists returns immediately, leaving the state — including readiness —
untouched and triggering no new initialization. -/
theorem initWhatsAppClient_singleton :
    (∀ (n : Nat) (sched : List Nat),
      (runSched initRegState (List.replicate n CallPC.entry) sched).1.initCount ≤ 1 ∧
      ((runSched initRegState (List.replicate n CallPC.entry) sched).1.inst = none ∨
        (runSched initRegState (List.replicate n CallPC.entry) sched).1.inst = some 0)) ∧
    (∀ (s : RegState) (x : Nat), s.inst = some x →
      stepCall s CallPC.entry = (s, CallPC.done)) := by
  constructor
  · intro n sched
    have h := runSched_inv sched initRegState (List.replicate n CallPC.entry)
      (Or.inl ⟨rfl, rfl, rfl⟩)
    rcases h with ⟨h1, h2, h3⟩ | ⟨h1, h2, h3⟩
    · exact ⟨by omega, Or.inl h1⟩
    · exact ⟨by omega, Or.inr h1⟩
  · intro s x hx
    simp [stepCall, hx]

/-- C6 witness: the singleton theorem applied to a ready registry state with
one existing instance. -/
theorem initWhatsAppClient_singleton_witness :
    stepCall ⟨some 0, 1, 1, true⟩ CallPC.entry = (⟨some 0, 1, 1, true⟩, CallPC.done) :=
  initWhatsAppClient_singleton.2 ⟨some 0, 1, 1, true⟩ 0 rfl

/-- C7: on the empty contact list the bulk dispatch returns the zero
counters and an empty trace — no transport call and no pause at all. -/
theorem sendBulkMessages_empty (sess : Session) (dm : String) (delay : Nat) :
    sendBulkMessages sess [] dm delay = (⟨0, 0, 0⟩, []) := rfl

/-- The CSV row processing is: keep exactly the rows accepted by the truthy
phone check, and build each contact with `rowContact`. -/
theorem readContactsFromCSV_eq (rows : List Row) :
    readContactsFromCSV rows = (rows.filter rowAccepted).map rowContact := by
  induction rows with
  | nil => rfl
  | cons row rest ih =>
    cases hp : row.phone with
    | none =>
      have ha : rowAccepted row = false := by simp [rowAccepted, hp]
      simp only [readContactsFromCSV, List.filterMap_cons, hp, List.filter_cons, ha]
      exact ih
    | some p =>
      by_cases he : p = ""
      · have ha : rowAccepted row = false := by simp [rowAccepted, hp, he]
        simp only [readContactsFromCSV, List.filterMap_cons, hp, he, if_pos rfl,
          List.filter_cons, ha]
        exact ih
      · have ha : rowAccepted row = true := by simp [rowAccepted, hp, he]
        have hfil : List.filter rowAccepted (row :: rest) =
            row :: List.filter rowAccepted rest := List.filter_cons_of_pos ha
        have hfm : readContactsFromCSV (row :: rest) =
            Contact.mk (jsOrStr row.name "Unknown") (formatPhoneNumber p)
                (jsOrNull row.message) :: readContactsFromCSV rest := by
          simp only [readContactsFromCSV, List.filterMap_cons, hp, if_neg he]
        have hc : rowContact row =
            Contact.mk (jsOrStr row.name "Unknown") (formatPhoneNumber p)
              (jsOrNull row.message) := by
          simp [rowContact, hp, jsOrStr, he]
        rw [hfm, hfil, List.map_cons, ih, hc]

/-- C8: a CSV row is accepted exactly when it carries a present, non-empty
phone field; an absent name defaults to "Unknown"; an absent message defaults
to `none`; the phone of every emitted contact is the source phone passed
through `formatPhoneNumber`, so it is already in transport address form
(digits followed by the fixed suffix) when it leaves the reader. -/
theorem readContactsFromCSV_spec (rows : List Row) :
    readContactsFromCSV rows = (rows.filter rowAccepted).map rowContact ∧
    (∀ row : Row, rowAccepted row = true ↔ ∃ p, row.phone = some p ∧ p ≠ "") ∧
    (∀ row : Row, row.name = none → (rowContact row).name = "Unknown") ∧
    (∀ row : Row, row.message = none → (rowContact row).message = none) ∧
    (∀ (row : Row) (p : String), row.phone = some p →
      (rowContact row).phone = formatPhoneNumber p) ∧
    (∀ c ∈ readContactsFromCSV rows, ∃ D : List Char,
      c.phone.data = D ++ "@c.us".data ∧ D.all Char.isDigit) := by
  refine ⟨readContactsFromCSV_eq rows, ?_, ?_, ?_, ?_, ?_⟩
  · intro row
    cases hp : row.phone with
    | none => simp [rowAccepted, hp]
    | some p =>
      by_cases he : p = "" <;> simp [rowAccepted, hp, he]
  · intro row hn
    simp [rowContact, jsOrStr, hn]
  · intro row hm
    simp [rowContact, jsOrNull, hm]
  · intro row p hp
    by_cases he : p = ""
    · simp [rowContact, hp, jsOrStr, he]
    · simp [rowContact, hp, jsOrStr, he]
  · intro c hc
    rw [readContactsFromCSV_eq rows] at hc
    rcases List.mem_map.mp hc with ⟨row, _, hrow⟩
    refine ⟨countryDigits (jsOrStr row.phone ""), ?_, ?_⟩
    · rw [← hrow]; rfl
    · rcases (formatPhoneNumber_normalizes (jsOrStr row.phone "")).1 with ⟨D, hD, hall⟩
      have : D = countryDigits (jsOrStr row.phone "") := by
        have hD2 : (formatPhoneNumber (jsOrStr row.phone "")).data =
            countryDigits (jsOrStr row.phone "") ++ "@c.us".data := rfl
        rw [hD2] at hD
        exact (List.append_cancel_right hD.symm)
      rw [← this]
      exact hall

/-- C8 witness: the reader theorem applied to a concrete row with absent
name and message fields and to its emitted contact. -/
theorem readContactsFromCSV_spec_witness :
    (rowContact ⟨none, some "0812", none⟩).name = "Unknown" ∧
    (rowContact ⟨none, some "0812", none⟩).message = none ∧
    ∃ D : List Char,
      (Contact.mk "Unknown" "62812@c.us" none).phone.data = D ++ "@c.us".data ∧
        D.all Char.isDigit :=
  ⟨(readContactsFromCSV_spec []).2.2.1 ⟨none, some "0812", none⟩ rfl,
   (readContactsFromCSV_spec []).2.2.2.1 ⟨none, some "0812", none⟩ rfl,
   (readContactsFromCSV_spec [⟨none, some "0812", none⟩]).2.2.2.2.2
     ⟨"Unknown", "62812@c.us", none⟩ (by decide)⟩

/-- C9: the `/send-message` handler rejects every body missing `phone` or
`message` with the 400 client-error payload and an empty trace — no session
acquisition and no delivery attempt; for every valid body (both fields
present and non-empty) it answers 200 success with "Message sent to <name>"
when `sendMessage` returns true, and 500 failed with "Failed to send message
to <name>" when it returns false. -/
theorem postSendMessage_responses (sess : Session) (body : ReqBody) :
    ((body.phone = none ∨ body.message = none) →
      postSendMessage sess body =
        (⟨400, JsonBody.errField "phone and message are required"⟩, [])) ∧
    (∀ p m, body.phone = some p → body.message = some m → p ≠ "" → m ≠ "" →
      ((sendMessage sess (reqContact body) "").1 = true →
        (postSendMessage sess body).1 =
          ⟨200, JsonBody.statusDetail "success"
            ("Message sent to " ++ (reqContact body).name)⟩) ∧
      ((sendMessage sess (reqContact body) "").1 = false →
        (postSendMessage sess body).1 =
          ⟨500, JsonBody.statusDetail "failed"
            ("Failed to send message to " ++ (reqContact body).name)⟩)) := by
  constructor
  · rintro (h | h) <;> simp [postSendMessage, jsTruthy, h]
  · intro p m hp hm hpne hmne
    constructor
    · intro hres
      simp [postSendMessage, jsTruthy, hp, hm, hpne, hmne, hres]
    · intro hres
      simp [postSendMessage, jsTruthy, hp, hm, hpne, hmne, hres]

/-- C9 witness: the handler theorem applied to a body with a missing phone
and to a valid body that delivers successfully. -/
theorem postSendMessage_responses_witness :
    postSendMessage sessOk ⟨some "Z", none, some "Hi"⟩ =
      (⟨400, JsonBody.errField "phone and message are required"⟩, []) ∧
    (postSendMessage sessOk ⟨none, some "0812", some "Hi"⟩).1 =
      ⟨200, JsonBody.statusDetail "success"
        ("Message sent to " ++ (reqContact ⟨none, some "0812", some "Hi"⟩).name)⟩ :=
  ⟨(postSendMessage_responses sessOk ⟨some "Z", none, some "Hi"⟩).1 (Or.inl rfl),
   ((postSendMessage_responses sessOk ⟨none, some "0812", some "Hi"⟩).2 "0812" "Hi"
     rfl rfl (by decide) (by decide)).1 (by decide)⟩

/-- C10: for a valid body with no `name` field, the handler builds the
contact with name "Unknown" and delegates to `sendMessage` with the default
message left at `''`; consequently any text actually sent is exactly the
request's message with its first `{name}` occurrence literally replaced by
"Unknown" (literal because "Unknown" contains no `$`), addressed to the
normalized phone. -/
theorem postSendMessage_default_name (sess : Session) (p m : String)
    (hp : p ≠ "") (hm : m ≠ "") :
    (reqContact ⟨none, some p, some m⟩).name = "Unknown" ∧
    (postSendMessage sess ⟨none, some p, some m⟩).2 =
      GEv.getSession ::
        ((sendMessage sess (reqContact ⟨none, some p, some m⟩) "").2.map GEv.transport) ∧
    (∀ ph txt,
      GEv.transport (Ev.send ph txt) ∈ (postSendMessage sess ⟨none, some p, some m⟩).2 →
        ph = formatPhoneNumber p ∧ txt = literalReplaceFirst m "{name}" "Unknown") := by
  have hname : (reqContact ⟨none, some p, some m⟩).name = "Unknown" := rfl
  have htr : (postSendMessage sess ⟨none, some p, some m⟩).2 =
      GEv.getSession ::
        ((sendMessage sess (reqContact ⟨none, some p, some m⟩) "").2.map GEv.transport) := by
    simp [postSendMessage, jsTruthy, hp, hm]
  refine ⟨hname, htr, ?_⟩
  intro ph txt hmem
  rw [htr] at hmem
  simp only [List.mem_cons] at hmem
  rcases hmem with hmem | hmem
  · exact absurd hmem (by simp)
  · rcases List.mem_map.mp hmem with ⟨e, he, heq⟩
    have : e = Ev.send ph txt := by
      cases heq
      rfl
    rw [this] at he
    have hsend := sendMessage_send_event sess (reqContact ⟨none, some p, some m⟩) "" ph txt he
    have hres : jsOrStr (reqContact ⟨none, some p, some m⟩).message "" = m := by
      simp [reqContact, jsOrStr, hm]
    have hphone : (reqContact ⟨none, some p, some m⟩).phone = formatPhoneNumber p := by
      simp [reqContact, jsOrStr, hp]
    refine ⟨by rw [hsend.1]; exact hphone, ?_⟩
    rw [hsend.2, hres, hname]
    exact jsReplace_no_dollar m "{name}" "Unknown" (by decide)

/-- C10 witness: the default-name theorem applied to a concrete body. -/
theorem postSendMessage_default_name_witness :
    (reqContact ⟨none, some "0812", some "Hi {name}"⟩).name = "Unknown" :=
  (postSendMessage_default_name sessOk "0812" "Hi {name}" (by decide) (by decide)).1

end WhatsAppSender
